import Mathlib

/-!
Verification of the `CommandInput` component
(`src/frontend/src/components/CommandInput.tsx`).

The component owns three pieces of local state — the draft text
(`command`), the submitted-command history (`commandHistory`) and the
history-browsing cursor (`historyIndex`) — and two event handlers,
`sendCommand` (submit) and `handleKeyDown` (Ctrl/Meta+Enter submit and
ArrowUp/ArrowDown history navigation).  All reads of component state
inside one handler see the pre-handler values (React closure
semantics), so each handler is embedded as a pure function from the
pre-state to the post-state together with the list of emitted
callback invocations.
-/

namespace CommandInput

/-- The local state of the component: `command` is the draft text
(initially the empty string), `commandHistory` the submitted-command
list (initially empty), `historyIndex` the history cursor (initially
-1), an integer because `-1` means "not browsing". -/
structure CIState where
  command : String
  commandHistory : List String
  historyIndex : Int
deriving Repr, DecidableEq

/-- The state at component mount: empty draft, empty history, cursor −1. -/
def initialState : CIState := ⟨"", [], -1⟩

/-- Directions accepted by the `onSendArrowKey` callback. -/
inductive Direction
  | up | down | left | right
deriving Repr, DecidableEq

/-- Externally observable effects of one handler run: an
`onSendCommand(text)` call, an `onSendArrowKey(direction)` call, or a
focus request on the textarea. -/
inductive Output
  | sendCmd (s : String)
  | sendArrowKey (d : Direction)
  | focusRequest
deriving Repr, DecidableEq

/-- The fields of a `React.KeyboardEvent` that `handleKeyDown` reads. -/
structure KeyEvent where
  key : String
  ctrlKey : Bool
  metaKey : Bool
deriving Repr, DecidableEq

/-- JS `String.prototype.trim()`: the string with leading and trailing
whitespace characters removed. -/
def jsTrim (s : String) : String :=
  ⟨((s.data.dropWhile Char.isWhitespace).reverse.dropWhile
      Char.isWhitespace).reverse⟩

/-- The JS expression `commandHistory[commandHistory.length - 1 - newIndex]`.
Both handlers only evaluate it at indexes that are in range (the guards
ensure `0 ≤ newIndex < commandHistory.length` on every state whose cursor
satisfies the data-model invariant), so the `getD` default is never
reached there. -/
def histEntry (hist : List String) (i : Int) : String :=
  hist.getD ((hist.length : Int) - 1 - i).toNat ""

/-- The `sendCommand` handler.  Source order: bail out when `disabled`;
when the trimmed draft is non-empty, append the untrimmed draft to the
history, reset the cursor to −1, call `onSendCommand` with the draft and
clear the draft; otherwise call `onSendCommand` with a carriage return
and touch nothing. -/
def sendCommand (disabled : Bool) (s : CIState) : CIState × List Output :=
  if disabled then (s, [])
  else if jsTrim s.command ≠ "" then
    ({ command := "",
       commandHistory := s.commandHistory ++ [s.command],
       historyIndex := -1 },
     [Output.sendCmd s.command])
  else
    (s, [Output.sendCmd "\r"])

/-- The `handleKeyDown` handler.  Ctrl+Enter or Meta+Enter submits via
`sendCommand`; ArrowUp walks the cursor toward older entries when
possible; ArrowDown walks back toward the live draft.  Only the submit
path sees the `disabled` flag (through `sendCommand`). -/
def handleKeyDown (disabled : Bool) (e : KeyEvent) (s : CIState) :
    CIState × List Output :=
  if (e.ctrlKey || e.metaKey) && e.key == "Enter" then
    sendCommand disabled s
  else if e.key == "ArrowUp" then
    if s.commandHistory.length > 0 then
      let newIndex := s.historyIndex + 1
      if newIndex < (s.commandHistory.length : Int) then
        ({ s with historyIndex := newIndex,
                  command := histEntry s.commandHistory newIndex }, [])
      else (s, [])
    else (s, [])
  else if e.key == "ArrowDown" then
    if s.historyIndex > 0 then
      let newIndex := s.historyIndex - 1
      ({ s with historyIndex := newIndex,
                command := histEntry s.commandHistory newIndex }, [])
    else if s.historyIndex = 0 then
      ({ s with historyIndex := -1, command := "" }, [])
    else (s, [])
  else (s, [])

/-- One statement of the body of `sendCommand`, used to state the
temporal ordering of the callback relative to the state mutations of
the same submission. -/
inductive Step
  | setHistory (h : List String)
  | setIndex (i : Int)
  | callSend (t : String)
  | setDraft (t : String)
deriving Repr, DecidableEq

/-- The statement-by-statement trace of one `sendCommand` run, in the
order the source executes them: history append, cursor reset,
`onSendCommand` call, draft clear on the non-blank path; just the
carriage-return `onSendCommand` call on the blank path; nothing when
disabled. -/
def sendCommandTrace (disabled : Bool) (s : CIState) : List Step :=
  if disabled then []
  else if jsTrim s.command ≠ "" then
    [Step.setHistory (s.commandHistory ++ [s.command]),
     Step.setIndex (-1),
     Step.callSend s.command,
     Step.setDraft ""]
  else
    [Step.callSend "\r"]

/-- A user interaction at the DOM boundary: a key press in the textarea,
a form submission, a click on one of the four arrow buttons, or a click
on the submit button. -/
inductive Interaction
  | keyPress (e : KeyEvent)
  | formSubmit
  | clickArrow (d : Direction)
  | clickSubmitButton
deriving Repr, DecidableEq

/-- Browser-level dispatch of one interaction.  The textarea and every
button carry `disabled={disabled}`, so while `disabled` is true the
textarea delivers no key events and the buttons are inert; the arrow
buttons call `onSendArrowKey(direction)` directly; the submit button and
form submission run `handleSubmit`, which is `sendCommand` after
`preventDefault`. -/
def interact (disabled : Bool) (i : Interaction) (s : CIState) :
    CIState × List Output :=
  match i with
  | Interaction.keyPress e =>
      if disabled then (s, []) else handleKeyDown disabled e s
  | Interaction.formSubmit => sendCommand disabled s
  | Interaction.clickArrow d =>
      if disabled then (s, []) else (s, [Output.sendArrowKey d])
  | Interaction.clickSubmitButton =>
      if disabled then (s, []) else sendCommand disabled s

/-- The auto-focus effect: it requests focus on the textarea exactly
when `disabled` is false (the ref is present once mounted). -/
def focusEffect (disabled : Bool) : List Output :=
  if !disabled then [Output.focusRequest] else []

/-- The draft-edit operation: the `onChange` handler of the textarea
sets `command` to the new field value and touches nothing else. -/
def editDraft (t : String) (s : CIState) : CIState :=
  { s with command := t }

/-- The operations that can mutate the component state. -/
inductive Op
  | submit (disabled : Bool)
  | keyDown (disabled : Bool) (e : KeyEvent)
  | edit (t : String)
deriving Repr, DecidableEq

/-- State reached by one operation (callbacks discarded). -/
def applyOp (o : Op) (s : CIState) : CIState :=
  match o with
  | Op.submit d => (sendCommand d s).1
  | Op.keyDown d e => (handleKeyDown d e s).1
  | Op.edit t => editDraft t s

/-- State reached from `s` by a sequence of operations. -/
def runOps (ops : List Op) (s : CIState) : CIState :=
  ops.foldl (fun st o => applyOp o st) s

/-- The data-model cursor invariant: the cursor is −1 or a valid index
into the history. -/
def cursorInv (s : CIState) : Prop :=
  s.historyIndex = -1 ∨
    (0 ≤ s.historyIndex ∧ s.historyIndex < (s.commandHistory.length : Int))

instance (s : CIState) : Decidable (cursorInv s) := by
  unfold cursorInv; infer_instance

/-- Type `t` into the field and submit it (enabled component), keeping
only the resulting state: used to state the concrete history scenarios
of the spec. -/
def submitText (t : String) (s : CIState) : CIState :=
  (sendCommand false (editDraft t s)).1

/-- An unmodified ArrowUp key press, keeping only the resulting state. -/
def pressUp (s : CIState) : CIState :=
  (handleKeyDown false ⟨"ArrowUp", false, false⟩ s).1

/-- An unmodified ArrowDown key press, keeping only the resulting
state. -/
def pressDown (s : CIState) : CIState :=
  (handleKeyDown false ⟨"ArrowDown", false, false⟩ s).1

end CommandInput

namespace CommandInput

/-- Claim C1: for every draft whose trim is non-empty, submitting (not
disabled) appends the untrimmed draft to the history, resets the cursor
to −1, calls `onSendCommand` exactly once with the verbatim draft, and
leaves the draft empty. -/
theorem submit_nonblank (s : CIState) (h : jsTrim s.command ≠ "") :
    sendCommand false s =
      ({ command := "",
         commandHistory := s.commandHistory ++ [s.command],
         historyIndex := -1 },
       [Output.sendCmd s.command]) := by
  simp [sendCommand, h]

/-- Witness for claim C1: submitting the draft `" ls -la "` from a concrete
state. -/
theorem submit_nonblank_witness :
    jsTrim " ls -la " ≠ "" ∧
      sendCommand false ⟨" ls -la ", ["a"], 0⟩ =
        (⟨"", ["a", " ls -la "], -1⟩, [Output.sendCmd " ls -la "]) :=
  ⟨by decide, submit_nonblank ⟨" ls -la ", ["a"], 0⟩ (by decide)⟩

/-- Claim C4: for every draft whose trim is empty, submitting (not disabled)
calls `onSendCommand` exactly once with the single carriage return and
changes none of the draft, history or cursor. -/
theorem submit_blank (s : CIState) (h : jsTrim s.command = "") :
    sendCommand false s = (s, [Output.sendCmd "\r"]) := by
  simp [sendCommand, h]

/-- Witness for claim C4: submitting a whitespace-only draft from a concrete
state. -/
theorem submit_blank_witness :
    jsTrim "  " = "" ∧
      sendCommand false ⟨"  ", ["a", "b"], 1⟩ =
        (⟨"  ", ["a", "b"], 1⟩, [Output.sendCmd "\r"]) :=
  ⟨by decide, submit_blank ⟨"  ", ["a", "b"], 1⟩ (by decide)⟩

/-- Claim C2: with non-empty history, an ArrowUp press moves the cursor
from `c` to `c + 1` and sets the draft to the entry
`History[length - 1 - (c + 1)]` when `c + 1 < length`, and is a no-op
when `c + 1 = length`; in particular after submitting "a", "b", "c"
three Up presses yield drafts "c", "b", "a" and a fourth Up changes
nothing. -/
theorem arrowUp_navigation (s : CIState)
    (hne : 0 < s.commandHistory.length) :
    ((s.historyIndex + 1 < (s.commandHistory.length : Int) →
        handleKeyDown false ⟨"ArrowUp", false, false⟩ s =
          ({ s with
               historyIndex := s.historyIndex + 1,
               command := histEntry s.commandHistory (s.historyIndex + 1) },
           [])) ∧
      (s.historyIndex + 1 = (s.commandHistory.length : Int) →
        handleKeyDown false ⟨"ArrowUp", false, false⟩ s = (s, []))) ∧
    (let s3 := submitText "c" (submitText "b" (submitText "a" initialState))
     (pressUp s3).command = "c" ∧
       (pressUp (pressUp s3)).command = "b" ∧
       (pressUp (pressUp (pressUp s3))).command = "a" ∧
       pressUp (pressUp (pressUp (pressUp s3))) =
         pressUp (pressUp (pressUp s3))) := by
  refine ⟨⟨?_, ?_⟩, by decide⟩
  · intro hlt
    simp [handleKeyDown, hne, hlt]
  · intro heq
    simp [handleKeyDown, hne, heq]

/-- Witness for claim C2: the general ArrowUp transition applied at a
concrete state with history of length two and cursor 0. -/
theorem arrowUp_navigation_witness :
    0 < (["a", "b"] : List String).length ∧
      handleKeyDown false ⟨"ArrowUp", false, false⟩ ⟨"b", ["a", "b"], 0⟩ =
        (⟨"a", ["a", "b"], 1⟩, []) := by
  refine ⟨by decide, ?_⟩
  have h := (arrowUp_navigation ⟨"b", ["a", "b"], 0⟩ (by decide)).1.1 (by decide)
  simpa [histEntry] using h

/-- Claim C3: an ArrowDown press with cursor `c > 0` moves the cursor to
`c - 1` and sets the draft to `History[length - 1 - (c - 1)]`; with
cursor 0 it sets the cursor to −1 and clears the draft; with cursor −1
it changes neither cursor nor draft. -/
theorem arrowDown_navigation (s : CIState) :
    (0 < s.historyIndex →
      handleKeyDown false ⟨"ArrowDown", false, false⟩ s =
        ({ s with
             historyIndex := s.historyIndex - 1,
             command := histEntry s.commandHistory (s.historyIndex - 1) },
         [])) ∧
    (s.historyIndex = 0 →
      handleKeyDown false ⟨"ArrowDown", false, false⟩ s =
        ({ s with historyIndex := -1, command := "" }, [])) ∧
    (s.historyIndex = -1 →
      handleKeyDown false ⟨"ArrowDown", false, false⟩ s = (s, [])) := by
  refine ⟨?_, ?_, ?_⟩
  · intro hpos
    simp [handleKeyDown, hpos]
  · intro h0
    simp [handleKeyDown, h0]
  · intro hm1
    simp [handleKeyDown, hm1]

/-- Witness for claim C3: the three ArrowDown cases applied at concrete
states with history of length two. -/
theorem arrowDown_navigation_witness :
    (0 < (1 : Int) ∧
      handleKeyDown false ⟨"ArrowDown", false, false⟩ ⟨"a", ["a", "b"], 1⟩ =
        (⟨"b", ["a", "b"], 0⟩, [])) ∧
    handleKeyDown false ⟨"ArrowDown", false, false⟩ ⟨"b", ["a", "b"], 0⟩ =
      (⟨"", ["a", "b"], -1⟩, []) ∧
    handleKeyDown false ⟨"ArrowDown", false, false⟩ ⟨"x", ["a", "b"], -1⟩ =
      (⟨"x", ["a", "b"], -1⟩, []) := by
  refine ⟨⟨by decide, ?_⟩, ?_, ?_⟩
  · have h := (arrowDown_navigation ⟨"a", ["a", "b"], 1⟩).1 (by decide)
    simpa [histEntry] using h
  · exact (arrowDown_navigation ⟨"b", ["a", "b"], 0⟩).2.1 (by decide)
  · exact (arrowDown_navigation ⟨"x", ["a", "b"], -1⟩).2.2 (by decide)

/-- Every single operation preserves the cursor invariant. -/
theorem cursorInv_applyOp (o : Op) (s : CIState) (h : cursorInv s) :
    cursorInv (applyOp o s) := by
  have hsend : ∀ d, cursorInv (sendCommand d s).1 := by
    intro d
    unfold sendCommand
    split
    · exact h
    split
    · exact Or.inl rfl
    · exact h
  rcases o with d | ⟨d, e⟩ | t
  · simpa only [applyOp] using hsend d
  · simp only [applyOp, handleKeyDown]
    split
    · exact hsend d
    split
    · split
      · split
        · rename_i hlen hlt
          simp only [cursorInv] at h ⊢
          omega
        · exact h
      · exact h
    split
    · split
      · rename_i hpos
        simp only [cursorInv] at h ⊢
        omega
      split
      · exact Or.inl rfl
      · exact h
    · exact h
  · exact h

/-- Claim C5: every state reachable from the initial state by submit,
key-down and draft-edit operations has its cursor equal to −1 or a
valid history index, and every single operation preserves this
invariant. -/
theorem cursor_invariant_reachable (ops : List Op) :
    cursorInv (runOps ops initialState) ∧
      (∀ o s, cursorInv s → cursorInv (applyOp o s)) := by
  have hrun : ∀ l s, cursorInv s → cursorInv (runOps l s) := by
    intro l
    induction l with
    | nil => intro s hs; exact hs
    | cons o rest ih =>
        intro s hs
        exact ih (applyOp o s) (cursorInv_applyOp o s hs)
  exact ⟨hrun ops initialState (Or.inl rfl), cursorInv_applyOp⟩

/-- Witness for claim C5: the invariant holds after a concrete run, and
preservation applies at a concrete operation and state. -/
theorem cursor_invariant_reachable_witness :
    cursorInv
        (runOps
          [Op.edit "a", Op.submit false,
           Op.keyDown false ⟨"ArrowUp", false, false⟩]
          initialState) ∧
      cursorInv (applyOp (Op.edit "x") ⟨"", ["a"], 0⟩) :=
  ⟨(cursor_invariant_reachable
      [Op.edit "a", Op.submit false,
       Op.keyDown false ⟨"ArrowUp", false, false⟩]).1,
   (cursor_invariant_reachable []).2 (Op.edit "x") ⟨"", ["a"], 0⟩
     (by decide)⟩

/-- Claim C6: while `disabled` is true, no user interaction emits any
callback invocation (neither `onSendCommand` nor `onSendArrowKey`), and
the focus effect requests no focus. -/
theorem disabled_inert (i : Interaction) (s : CIState) :
    (interact true i s).2 = [] ∧ focusEffect true = [] := by
  cases i <;> simp [interact, focusEffect, sendCommand]

/-- Counterexample for claim C7: a Ctrl+ArrowUp press on a state with
one history entry and cursor −1 does change the cursor and the draft:
the modifier does not suppress history navigation. -/
theorem ctrl_arrowUp_navigates :
    ((handleKeyDown false ⟨"ArrowUp", true, false⟩ ⟨"", ["a"], -1⟩).1.historyIndex ≠
        (⟨"", ["a"], -1⟩ : CIState).historyIndex) ∧
      ((handleKeyDown false ⟨"ArrowUp", true, false⟩ ⟨"", ["a"], -1⟩).1.command ≠
        (⟨"", ["a"], -1⟩ : CIState).command) := by
  decide

/-- Amended claim C7: the Ctrl/Meta modifier check intercepts only the
Enter key; an ArrowUp or ArrowDown press navigates history exactly as
the unmodified press does, whatever modifiers are held. -/
theorem arrow_navigation_ignores_modifiers (d : Bool) (e : KeyEvent)
    (s : CIState) (h : e.key = "ArrowUp" ∨ e.key = "ArrowDown") :
    handleKeyDown d e s = handleKeyDown d ⟨e.key, false, false⟩ s := by
  rcases e with ⟨k, c, m⟩
  rcases h with h | h <;> subst h <;> cases c <;> cases m <;> rfl

/-- Witness for amended claim C7: Ctrl+ArrowUp behaves as plain ArrowUp
at a concrete state. -/
theorem arrow_navigation_ignores_modifiers_witness :
    ((⟨"ArrowUp", true, false⟩ : KeyEvent).key = "ArrowUp" ∨
        (⟨"ArrowUp", true, false⟩ : KeyEvent).key = "ArrowDown") ∧
      handleKeyDown false ⟨"ArrowUp", true, false⟩ ⟨"", ["a"], -1⟩ =
        handleKeyDown false ⟨"ArrowUp", false, false⟩ ⟨"", ["a"], -1⟩ :=
  ⟨Or.inl rfl,
   arrow_navigation_ignores_modifiers false ⟨"ArrowUp", true, false⟩
     ⟨"", ["a"], -1⟩ (Or.inl rfl)⟩

/-- Claim C8: on a non-blank submission the `onSendCommand` call occurs
strictly after the history append and the cursor reset of that
submission, and strictly before the draft clear. -/
theorem send_callback_ordering (s : CIState) (h : jsTrim s.command ≠ "") :
    ∃ iH iC iS iD : Nat,
      (sendCommandTrace false s).get? iH =
          some (Step.setHistory (s.commandHistory ++ [s.command])) ∧
      (sendCommandTrace false s).get? iC = some (Step.setIndex (-1)) ∧
      (sendCommandTrace false s).get? iS =
          some (Step.callSend s.command) ∧
      (sendCommandTrace false s).get? iD = some (Step.setDraft "") ∧
      iH < iS ∧ iC < iS ∧ iS < iD := by
  refine ⟨0, 1, 2, 3, ?_, ?_, ?_, ?_, ?_, ?_, ?_⟩ <;>
    simp [sendCommandTrace, h]

/-- Witness for claim C8: the ordering at the concrete submission of
the draft "ls". -/
theorem send_callback_ordering_witness :
    jsTrim "ls" ≠ "" ∧
      (∃ iH iC iS iD : Nat,
        (sendCommandTrace false ⟨"ls", [], -1⟩).get? iH =
            some (Step.setHistory ([] ++ ["ls"])) ∧
        (sendCommandTrace false ⟨"ls", [], -1⟩).get? iC =
            some (Step.setIndex (-1)) ∧
        (sendCommandTrace false ⟨"ls", [], -1⟩).get? iS =
            some (Step.callSend "ls") ∧
        (sendCommandTrace false ⟨"ls", [], -1⟩).get? iD =
            some (Step.setDraft "") ∧
        iH < iS ∧ iC < iS ∧ iS < iD) :=
  ⟨by decide, send_callback_ordering ⟨"ls", [], -1⟩ (by decide)⟩

/-- Claim C9: the history-navigation branches of `handleKeyDown` never
read the `disabled` flag: an ArrowUp event reaching the handler while
disabled, with non-empty history and `cursor + 1 < length`, mutates the
cursor and the draft exactly as in the enabled case. -/
theorem arrow_unguarded_by_disabled (s : CIState) (e : KeyEvent)
    (hk : e.key = "ArrowUp") (hne : 0 < s.commandHistory.length)
    (hlt : s.historyIndex + 1 < (s.commandHistory.length : Int)) :
    handleKeyDown true e s =
        ({ s with
             historyIndex := s.historyIndex + 1,
             command := histEntry s.commandHistory (s.historyIndex + 1) },
         []) ∧
      handleKeyDown true e s = handleKeyDown false e s := by
  rcases e with ⟨k, c, m⟩
  simp only at hk
  subst hk
  constructor
  · cases c <;> cases m <;> simp [handleKeyDown, hne, hlt]
  · cases c <;> cases m <;> rfl

/-- Witness for claim C9: a disabled ArrowUp press at a concrete state
still navigates. -/
theorem arrow_unguarded_by_disabled_witness :
    ((⟨"ArrowUp", false, false⟩ : KeyEvent).key = "ArrowUp" ∧
        0 < (["a"] : List String).length ∧
        (-1 : Int) + 1 < ((["a"] : List String).length : Int)) ∧
      handleKeyDown true ⟨"ArrowUp", false, false⟩ ⟨"", ["a"], -1⟩ =
        handleKeyDown false ⟨"ArrowUp", false, false⟩ ⟨"", ["a"], -1⟩ :=
  ⟨⟨rfl, by decide, by decide⟩,
   (arrow_unguarded_by_disabled ⟨"", ["a"], -1⟩ ⟨"ArrowUp", false, false⟩
      rfl (by decide) (by decide)).2⟩

/-- Claim C10: editing the field while browsing history changes only
the draft, leaving history and cursor untouched, so a subsequent
ArrowUp (when a further entry exists) continues from the same cursor
and replaces the edited draft with the corresponding history entry. -/
theorem edit_while_browsing (s : CIState) (t : String)
    (hb : 0 ≤ s.historyIndex) :
    (editDraft t s).command = t ∧
      (editDraft t s).commandHistory = s.commandHistory ∧
      (editDraft t s).historyIndex = s.historyIndex ∧
      (s.historyIndex + 1 < (s.commandHistory.length : Int) →
        handleKeyDown false ⟨"ArrowUp", false, false⟩ (editDraft t s) =
          ({ command := histEntry s.commandHistory (s.historyIndex + 1),
             commandHistory := s.commandHistory,
             historyIndex := s.historyIndex + 1 }, [])) := by
  refine ⟨rfl, rfl, rfl, ?_⟩
  intro hlt
  have hne : 0 < s.commandHistory.length := by omega
  simp [handleKeyDown, editDraft, hne, hlt]

/-- Witness for claim C10: editing to "zz" while the cursor is at 0 on
history of length 2, then pressing Up. -/
theorem edit_while_browsing_witness :
    ((0 : Int) ≤ 0 ∧ (0 : Int) + 1 < ((["a", "b"] : List String).length : Int)) ∧
      handleKeyDown false ⟨"ArrowUp", false, false⟩
          (editDraft "zz" ⟨"b", ["a", "b"], 0⟩) =
        (⟨"a", ["a", "b"], 1⟩, []) := by
  refine ⟨⟨by decide, by decide⟩, ?_⟩
  have h := (edit_while_browsing ⟨"b", ["a", "b"], 0⟩ "zz" (by decide)).2.2.2
    (by decide)
  simpa [histEntry] using h

end CommandInput
